import Mathlib

/-!
Verification of the Electron launch-vehicle capacity interpolation module
(`scripts/interpolation.py`): the tabulated performance data, the two-stage
piecewise-linear `capacity` query, and the fallible wrapper
`calculate_capacity_est_kg_python`.  Machine floats are modelled by exact
rationals; scipy's `interp1d(kind="linear", bounds_error=True)` is modelled
by its documented piecewise-linear semantics with inclusive bounds.
-/

namespace RocketLab

/-- Kinds of error signalled by the interpolation code.  scipy's `interp1d`
signals both malformed construction data and out-of-bounds evaluation as the
same Python exception class (`ValueError`); the model keeps the two kinds
apart so that error-handling claims can be stated. -/
inductive InterpError where
  | outOfBounds
  | configError
deriving DecidableEq, Repr

deriving instance DecidableEq for Except

/-- Circular-orbit altitudes (km), strictly ascending (the module-level
`orbital_altitude_km` array). -/
def orbital_altitude_km : List ℚ :=
  [400, 450, 500, 550, 600, 650, 700, 750, 800, 850,
   900, 950, 1000, 1050, 1100, 1150, 1200]

/-- The 40-degree payload-mass curve (kg). -/
def curve40 : List ℚ :=
  [270.0, 266.6, 263.8, 259.9, 257.4, 254.0, 251.3, 247.0, 243.3,
   239.3, 235.7, 231.9, 228.3, 224.5, 221.0, 217.4, 214.0]

/-- The 60-degree payload-mass curve (kg). -/
def curve60 : List ℚ :=
  [249.0, 245.9, 243.0, 240.0, 234.2, 232.4, 230.7, 227.7, 224.4,
   220.8, 217.7, 214.4, 211.4, 207.5, 204.2, 199.7, 197.3]

/-- The 80-degree payload-mass curve (kg). -/
def curve80 : List ℚ :=
  [224.4, 221.2, 218.7, 216.1, 213.7, 210.4, 208.0, 204.4, 201.7,
   197.9, 194.8, 191.3, 188.4, 184.9, 181.7, 178.3, 175.7]

/-- The 100-degree payload-mass curve (kg), typical Sun-synchronous orbit. -/
def curve100 : List ℚ :=
  [203.7, 200.8, 198.4, 195.3, 192.9, 189.5, 187.0, 183.4, 180.3,
   177.0, 174.1, 170.7, 168.0, 164.4, 161.6, 158.5, 155.6]

/-- Payload mass capacity (kg) for each inclination curve at each orbital
altitude (the module-level `capacity_est_kg` dict, in insertion order). -/
def capacity_est_kg : List (ℚ × List ℚ) :=
  [(40, curve40), (60, curve60), (80, curve80), (100, curve100)]

/-- One linear-interpolation step between `(x0, y0)` and `(x1, y1)`:
`y0 + (t - x0) * (y1 - y0) / (x1 - x0)`. -/
def lerp2 (x0 y0 x1 y1 t : ℚ) : ℚ := y0 + (t - x0) * (y1 - y0) / (x1 - x0)

/-- Piecewise-linear evaluation along a list of `(x, y)` pairs, as
`interp1d(kind="linear")` computes it: the segment used is the first one
whose right endpoint is at least `t` (numpy `searchsorted` with side
"left", clipped into the valid segment range). -/
def lerpFind : List (ℚ × ℚ) → ℚ → ℚ
  | [], _ => 0
  | [p], _ => p.2
  | p :: q :: rest, t =>
      if t ≤ q.1 then lerp2 p.1 p.2 q.1 q.2 t else lerpFind (q :: rest) t

/-- `scipy.interpolate.interp1d(xs, ys, kind="linear", bounds_error=True)`
applied to `t`: construction requires at least two points and equal array
lengths (a `ValueError` of the configuration kind); evaluation strictly
outside `[xs.head, xs.last]` raises a `ValueError` of the bounds kind. -/
def interp1d_eval (xs ys : List ℚ) (t : ℚ) : Except InterpError ℚ :=
  if xs.length < 2 ∨ ys.length ≠ xs.length then .error .configError
  else if t < xs.headD 0 ∨ xs.getLastD 0 < t then .error .outOfBounds
  else .ok (lerpFind (xs.zip ys) t)

/-- The module-level `_alt_interp` dict: one altitude interpolator per stored
inclination curve (missing keys model a Python `KeyError`, unreachable for
the keys the module uses). -/
def _alt_interp (inc : ℚ) (alt : ℚ) : Except InterpError ℚ :=
  match capacity_est_kg.find? (fun p => decide (p.1 = inc)) with
  | some p => interp1d_eval orbital_altitude_km p.2 alt
  | none => .error .configError

/-- `sorted(capacity_est_kg.keys())` as computed on every `capacity` call. -/
def sortedKeys : List ℚ :=
  (capacity_est_kg.map Prod.fst).insertionSort (fun a b => a ≤ b)

/-- The list comprehension `[_alt_interp[inc](alt_km) for inc in inclinations]`:
left to right, stopping at the first raised error. -/
def mapExcept (f : ℚ → Except InterpError ℚ) : List ℚ → Except InterpError (List ℚ)
  | [] => .ok []
  | a :: l =>
      match f a with
      | .error e => .error e
      | .ok v =>
          match mapExcept f l with
          | .error e => .error e
          | .ok vs => .ok (v :: vs)

/-- `capacity(alt_km, inc_deg)`: stage 1 interpolates every stored
inclination curve at `alt_km`; stage 2 interpolates the stage-1 results
across the sorted inclinations at `inc_deg`. -/
def capacity (alt inc : ℚ) : Except InterpError ℚ :=
  match mapExcept (fun k => _alt_interp k alt) sortedKeys with
  | .error e => .error e
  | .ok payloads => interp1d_eval sortedKeys payloads inc

/-- `calculate_capacity_est_kg_python(alt_km, inc_deg)`: returns the absent
value whenever `capacity` raises `ValueError` (both modelled error kinds are
`ValueError` in the source). -/
def calculate_capacity_est_kg_python (alt inc : ℚ) : Option ℚ :=
  match capacity alt inc with
  | .ok v => some v
  | .error _ => none

/-- Stage-1 view: the payload interpolated at `alt` along one stored curve. -/
def stage1 (c : List ℚ) (alt : ℚ) : ℚ := lerpFind (orbital_altitude_km.zip c) alt

/-- Stage-2 view: the synthetic (inclination, mass) curve built from the
stage-1 results, keys ascending. -/
def synth (alt : ℚ) : List (ℚ × ℚ) :=
  [(40, stage1 curve40 alt), (60, stage1 curve60 alt),
   (80, stage1 curve80 alt), (100, stage1 curve100 alt)]

/-- The x-components of the interpolation nodes are strictly ascending. -/
def SortedFst (pts : List (ℚ × ℚ)) : Prop :=
  List.Chain' (fun a b : ℚ × ℚ => a.1 < b.1) pts

instance : IsTrans (ℚ × ℚ) (fun a b : ℚ × ℚ => a.1 < b.1) :=
  ⟨fun _ _ _ h1 h2 => lt_trans h1 h2⟩

instance : IsTrans (ℚ × ℚ) (fun a b : ℚ × ℚ => a.1 < b.1 ∧ b.2 ≤ a.2) :=
  ⟨fun _ _ _ h1 h2 => ⟨lt_trans h1.1 h2.1, le_trans h2.2 h1.2⟩⟩

/-- Modelled from the spec (§4.2): piecewise-linear interpolation stated as
the spec words it — the stored value directly on an exact grid match,
otherwise the formula `y0 + (t - x0) * (y1 - y0) / (x1 - x0)` on the
bracketing points `x0 ≤ t ≤ x1`, and no result when no pair brackets `t`. -/
def specPL : List (ℚ × ℚ) → ℚ → Option ℚ
  | [], _ => none
  | [p], t => if t = p.1 then some p.2 else none
  | p :: q :: rest, t =>
      if t = p.1 then some p.2
      else if p.1 ≤ t ∧ t ≤ q.1 then some (lerp2 p.1 p.2 q.1 q.2 t)
      else specPL (q :: rest) t

/-- Modelled from the spec (§4.2): two-stage interpolation as the spec words
it — stage 1 applies the bracketing procedure to every stored curve at the
requested altitude, stage 2 applies the same procedure to the resulting
synthetic ascending (inclination, mass) curve at the requested inclination;
no result when either stage finds no bracketing pair. -/
def mapOpt (f : ℚ × List ℚ → Option (ℚ × ℚ)) :
    List (ℚ × List ℚ) → Option (List (ℚ × ℚ))
  | [] => some []
  | a :: l =>
      match f a, mapOpt f l with
      | some v, some vs => some (v :: vs)
      | _, _ => none

/-- Modelled from the spec (§4.2): the reference two-stage interpolation. -/
def specCapacity (alt inc : ℚ) : Option ℚ :=
  match mapOpt (fun pr => (specPL (orbital_altitude_km.zip pr.2) alt).map
      (fun y => (pr.1, y))) capacity_est_kg with
  | some pts => specPL pts inc
  | none => none

/-- Modelled from the spec: `PerformanceTable` (§3, §4.1). The source has no
table type — it keeps the grid and curves in module-level arrays — so the
validated table value is modelled from the spec's words. -/
structure PerformanceTable where
  grid : List ℚ
  curves : List (ℚ × List ℚ)

/-- Modelled from the spec: `build_table` and `ConfigError` (§4.1, §6) have
no implementation under src — the source builds scipy interpolators directly
from hardcoded arrays — so construction validation is modelled from the
spec's words: fail with `ConfigError` when the grid has fewer than 2 points,
is not strictly ascending, any curve's length differs from the grid length,
or fewer than 2 distinct inclination keys are supplied. -/
def build_table (grid : List ℚ) (curves : List (ℚ × List ℚ)) :
    Except InterpError PerformanceTable :=
  if grid.length < 2 then .error .configError
  else if ¬ List.Chain' (· < ·) grid then .error .configError
  else if curves.any (fun pr => pr.2.length ≠ grid.length) then .error .configError
  else if (curves.map Prod.fst).dedup.length < 2 then .error .configError
  else .ok ⟨grid, curves⟩

lemma sortedKeys_eq : sortedKeys = [40, 60, 80, 100] := by
  norm_num [sortedKeys, capacity_est_kg, List.insertionSort, List.orderedInsert]

/-- Closed form of `capacity`: bounds checks on both coordinates, then the
piecewise-linear evaluation along the synthetic curve. -/
lemma capacity_eq (alt inc : ℚ) :
    capacity alt inc =
      if alt < 400 ∨ 1200 < alt then .error .outOfBounds
      else if inc < 40 ∨ 100 < inc then .error .outOfBounds
      else .ok (lerpFind (synth alt) inc) := by
  by_cases halt : alt < 400 ∨ 1200 < alt
  · simp only [capacity, sortedKeys_eq, if_pos halt]
    norm_num [mapExcept, _alt_interp, capacity_est_kg, List.find?, interp1d_eval,
      orbital_altitude_km, curve40, halt]
  · simp only [capacity, sortedKeys_eq, if_neg halt]
    norm_num [mapExcept, _alt_interp, capacity_est_kg, List.find?, interp1d_eval,
      orbital_altitude_km, curve40, curve60, curve80, curve100, halt, synth, stage1,
      List.zip, List.zipWith]

lemma lerp2_left (x0 y0 x1 y1 : ℚ) : lerp2 x0 y0 x1 y1 x0 = y0 := by
  simp [lerp2]

lemma lerp2_right (x0 y0 x1 y1 : ℚ) (h : x0 ≠ x1) : lerp2 x0 y0 x1 y1 x1 = y1 := by
  have hd : x1 - x0 ≠ 0 := sub_ne_zero.mpr (Ne.symm h)
  field_simp [lerp2]

lemma lerp2_le (x0 y0 x1 y1 t hi : ℚ) (h01 : x0 < x1) (h0 : x0 ≤ t) (h1 : t ≤ x1)
    (hy0 : y0 ≤ hi) (hy1 : y1 ≤ hi) : lerp2 x0 y0 x1 y1 t ≤ hi := by
  have hd : (0:ℚ) < x1 - x0 := by linarith
  have heq : lerp2 x0 y0 x1 y1 t = ((x1 - t) * y0 + (t - x0) * y1) / (x1 - x0) := by
    field_simp [lerp2]
    ring
  rw [heq, div_le_iff₀ hd]
  nlinarith [mul_le_mul_of_nonneg_left hy0 (by linarith : (0:ℚ) ≤ x1 - t),
    mul_le_mul_of_nonneg_left hy1 (by linarith : (0:ℚ) ≤ t - x0)]

lemma lerp2_ge (x0 y0 x1 y1 t lo : ℚ) (h01 : x0 < x1) (h0 : x0 ≤ t) (h1 : t ≤ x1)
    (hy0 : lo ≤ y0) (hy1 : lo ≤ y1) : lo ≤ lerp2 x0 y0 x1 y1 t := by
  have hd : (0:ℚ) < x1 - x0 := by linarith
  have heq : lerp2 x0 y0 x1 y1 t = ((x1 - t) * y0 + (t - x0) * y1) / (x1 - x0) := by
    field_simp [lerp2]
    ring
  rw [heq, le_div_iff₀ hd]
  nlinarith [mul_le_mul_of_nonneg_left hy0 (by linarith : (0:ℚ) ≤ x1 - t),
    mul_le_mul_of_nonneg_left hy1 (by linarith : (0:ℚ) ≤ t - x0)]

lemma lerp2_anti (x0 y0 x1 y1 t1 t2 : ℚ) (h01 : x0 < x1) (hy : y1 ≤ y0) (ht : t1 ≤ t2) :
    lerp2 x0 y0 x1 y1 t2 ≤ lerp2 x0 y0 x1 y1 t1 := by
  have hd : (0:ℚ) < x1 - x0 := by linarith
  have h : (t2 - x0) * (y1 - y0) ≤ (t1 - x0) * (y1 - y0) := by nlinarith
  exact add_le_add_left ((div_le_div_iff_of_pos_right hd).mpr h) y0

/-- An exact node of a sorted interpolation list evaluates to its stored value. -/
lemma lerpFind_node : ∀ (pts : List (ℚ × ℚ)), SortedFst pts →
    ∀ p ∈ pts, lerpFind pts p.1 = p.2 := by
  intro pts
  induction pts with
  | nil => simp
  | cons q l ih =>
    intro hs p hp
    cases l with
    | nil =>
      rw [List.mem_singleton] at hp
      subst hp
      rfl
    | cons r rest =>
      have hqr : q.1 < r.1 := (List.chain'_cons.mp hs).1
      have hs' : SortedFst (r :: rest) := (List.chain'_cons.mp hs).2
      rcases List.mem_cons.mp hp with rfl | hp'
      · simp only [lerpFind, if_pos (le_of_lt hqr)]
        exact lerp2_left _ _ _ _
      · by_cases hpr : p.1 ≤ r.1
        · rcases List.mem_cons.mp hp' with rfl | hmem
          · simp only [lerpFind, if_pos le_rfl]
            exact lerp2_right _ _ _ _ (ne_of_lt hqr)
          · exfalso
            have hpair : List.Pairwise (fun a b : ℚ × ℚ => a.1 < b.1) (r :: rest) :=
              List.chain'_iff_pairwise.mp hs'
            have : r.1 < p.1 := (List.pairwise_cons.mp hpair).1 p hmem
            linarith
        · simp only [lerpFind, if_neg hpr]
          exact ih hs' p hp'

/-- Upper bound: with every node value at most `hi`, the in-bounds
interpolant is at most `hi`. -/
lemma lerpFind_le (hi : ℚ) : ∀ (l : List (ℚ × ℚ)) (p : ℚ × ℚ) (t : ℚ),
    SortedFst (p :: l) → (∀ a ∈ p :: l, a.2 ≤ hi) →
    p.1 ≤ t → t ≤ ((p :: l).getLast (List.cons_ne_nil p l)).1 →
    lerpFind (p :: l) t ≤ hi := by
  intro l
  induction l with
  | nil =>
    intro p t _ hy _ _
    exact hy p (List.mem_singleton_self p)
  | cons q rest ih =>
    intro p t hs hy h0 h1
    have hpq : p.1 < q.1 := (List.chain'_cons.mp hs).1
    have hs' : SortedFst (q :: rest) := (List.chain'_cons.mp hs).2
    rw [List.getLast_cons_cons] at h1
    by_cases htq : t ≤ q.1
    · simp only [lerpFind, if_pos htq]
      exact lerp2_le _ _ _ _ _ _ hpq h0 htq (hy p (by simp)) (hy q (by simp))
    · simp only [lerpFind, if_neg htq]
      exact ih q t hs' (fun a ha => hy a (List.mem_cons_of_mem p ha))
        (le_of_lt (lt_of_not_le htq)) h1

/-- Lower bound: with every node value at least `lo`, the in-bounds
interpolant is at least `lo`. -/
lemma lerpFind_ge (lo : ℚ) : ∀ (l : List (ℚ × ℚ)) (p : ℚ × ℚ) (t : ℚ),
    SortedFst (p :: l) → (∀ a ∈ p :: l, lo ≤ a.2) →
    p.1 ≤ t → t ≤ ((p :: l).getLast (List.cons_ne_nil p l)).1 →
    lo ≤ lerpFind (p :: l) t := by
  intro l
  induction l with
  | nil =>
    intro p t _ hy _ _
    exact hy p (List.mem_singleton_self p)
  | cons q rest ih =>
    intro p t hs hy h0 h1
    have hpq : p.1 < q.1 := (List.chain'_cons.mp hs).1
    have hs' : SortedFst (q :: rest) := (List.chain'_cons.mp hs).2
    rw [List.getLast_cons_cons] at h1
    by_cases htq : t ≤ q.1
    · simp only [lerpFind, if_pos htq]
      exact lerp2_ge _ _ _ _ _ _ hpq h0 htq (hy p (by simp)) (hy q (by simp))
    · simp only [lerpFind, if_neg htq]
      exact ih q t hs' (fun a ha => hy a (List.mem_cons_of_mem p ha))
        (le_of_lt (lt_of_not_le htq)) h1

/-- Antitone: strictly ascending x-nodes with non-increasing y-values give a
non-increasing in-bounds interpolant. -/
lemma lerpFind_anti : ∀ (l : List (ℚ × ℚ)) (p : ℚ × ℚ) (t1 t2 : ℚ),
    List.Chain' (fun a b : ℚ × ℚ => a.1 < b.1 ∧ b.2 ≤ a.2) (p :: l) →
    p.1 ≤ t1 → t1 ≤ t2 → t2 ≤ ((p :: l).getLast (List.cons_ne_nil p l)).1 →
    lerpFind (p :: l) t2 ≤ lerpFind (p :: l) t1 := by
  intro l
  induction l with
  | nil =>
    intro p t1 t2 _ _ _ _
    exact le_rfl
  | cons q rest ih =>
    intro p t1 t2 hs h0 h12 h2
    have hpq := (List.chain'_cons.mp hs).1
    have hs' := (List.chain'_cons.mp hs).2
    rw [List.getLast_cons_cons] at h2
    by_cases ht2 : t2 ≤ q.1
    · have ht1 : t1 ≤ q.1 := le_trans h12 ht2
      simp only [lerpFind, if_pos ht2, if_pos ht1]
      exact lerp2_anti _ _ _ _ _ _ hpq.1 hpq.2 h12
    · simp only [lerpFind, if_neg ht2]
      by_cases ht1 : t1 ≤ q.1
      · simp only [if_pos ht1]
        have hsx : SortedFst (q :: rest) := hs'.imp (fun _ _ h => h.1)
        have hpw : List.Pairwise (fun a b : ℚ × ℚ => a.1 < b.1 ∧ b.2 ≤ a.2) (q :: rest) :=
          List.chain'_iff_pairwise.mp hs'
        have hvals : ∀ a ∈ q :: rest, a.2 ≤ q.2 := by
          intro a ha
          rcases List.mem_cons.mp ha with rfl | ha'
          · exact le_rfl
          · exact ((List.pairwise_cons.mp hpw).1 a ha').2
        have hub : lerpFind (q :: rest) t2 ≤ q.2 :=
          lerpFind_le q.2 rest q t2 hsx hvals (le_of_lt (lt_of_not_le ht2)) h2
        have hlb : q.2 ≤ lerp2 p.1 p.2 q.1 q.2 t1 :=
          lerp2_ge _ _ _ _ _ _ hpq.1 h0 ht1 hpq.2 le_rfl
        linarith
      · simp only [if_neg ht1]
        exact ih q t1 t2 hs' (le_of_lt (lt_of_not_le ht1)) h12 h2

/-- On a sorted node list and an in-bounds query the spec's bracketing
procedure agrees with the implementation's evaluation. -/
lemma specPL_eq : ∀ (l : List (ℚ × ℚ)) (p : ℚ × ℚ) (t : ℚ),
    SortedFst (p :: l) → p.1 ≤ t → t ≤ ((p :: l).getLast (List.cons_ne_nil p l)).1 →
    specPL (p :: l) t = some (lerpFind (p :: l) t) := by
  intro l
  induction l with
  | nil =>
    intro p t _ h0 h1
    rw [List.getLast_singleton'] at h1
    have ht : t = p.1 := le_antisymm h1 h0
    simp only [specPL, lerpFind, if_pos ht]
  | cons q rest ih =>
    intro p t hs h0 h1
    have hpq : p.1 < q.1 := (List.chain'_cons.mp hs).1
    have hs' : SortedFst (q :: rest) := (List.chain'_cons.mp hs).2
    rw [List.getLast_cons_cons] at h1
    by_cases hteq : t = p.1
    · subst hteq
      simp only [specPL, lerpFind, if_pos (le_of_lt hpq)]
      rw [lerp2_left]
      simp
    · by_cases htq : t ≤ q.1
      · simp only [specPL, lerpFind, if_neg hteq, if_pos (And.intro h0 htq), if_pos htq]
      · simp only [specPL, lerpFind, if_neg hteq,
          if_neg (fun h : p.1 ≤ t ∧ t ≤ q.1 => htq h.2), if_neg htq]
        exact ih q t hs' (le_of_lt (lt_of_not_le htq)) h1

lemma specPL_eqD (pts : List (ℚ × ℚ)) (t : ℚ) (hs : SortedFst pts) (hne : pts ≠ [])
    (h0 : (pts.headD (0, 0)).1 ≤ t) (h1 : t ≤ (pts.getLastD (0, 0)).1) :
    specPL pts t = some (lerpFind pts t) := by
  match pts, hne with
  | p :: l, _ => exact specPL_eq l p t hs h0 h1

lemma lerpFind_leD (hi : ℚ) (pts : List (ℚ × ℚ)) (t : ℚ) (hs : SortedFst pts)
    (hy : ∀ a ∈ pts, a.2 ≤ hi) (hne : pts ≠ [])
    (h0 : (pts.headD (0, 0)).1 ≤ t) (h1 : t ≤ (pts.getLastD (0, 0)).1) :
    lerpFind pts t ≤ hi := by
  match pts, hne with
  | p :: l, _ => exact lerpFind_le hi l p t hs hy h0 h1

lemma lerpFind_geD (lo : ℚ) (pts : List (ℚ × ℚ)) (t : ℚ) (hs : SortedFst pts)
    (hy : ∀ a ∈ pts, lo ≤ a.2) (hne : pts ≠ [])
    (h0 : (pts.headD (0, 0)).1 ≤ t) (h1 : t ≤ (pts.getLastD (0, 0)).1) :
    lo ≤ lerpFind pts t := by
  match pts, hne with
  | p :: l, _ => exact lerpFind_ge lo l p t hs hy h0 h1

lemma lerpFind_antiD (pts : List (ℚ × ℚ)) (t1 t2 : ℚ)
    (hs : List.Chain' (fun a b : ℚ × ℚ => a.1 < b.1 ∧ b.2 ≤ a.2) pts) (hne : pts ≠ [])
    (h0 : (pts.headD (0, 0)).1 ≤ t1) (h12 : t1 ≤ t2) (h1 : t2 ≤ (pts.getLastD (0, 0)).1) :
    lerpFind pts t2 ≤ lerpFind pts t1 := by
  match pts, hne with
  | p :: l, _ => exact lerpFind_anti l p t1 t2 hs h0 h12 h1

/-- Zipping a strictly ascending x-list with any y-list gives sorted nodes. -/
lemma sortedFst_zip : ∀ (xs ys : List ℚ), List.Chain' (· < ·) xs →
    SortedFst (xs.zip ys) := by
  intro xs
  induction xs with
  | nil =>
    intro ys _
    simp [SortedFst]
  | cons x xs ih =>
    intro ys h
    cases ys with
    | nil => simp [SortedFst]
    | cons y ys =>
      cases xs with
      | nil => simp [SortedFst]
      | cons x2 xs2 =>
        cases ys with
        | nil => simp [SortedFst]
        | cons y2 ys2 =>
          have h1 : x < x2 := (List.chain'_cons.mp h).1
          have h2 : List.Chain' (· < ·) (x2 :: xs2) := (List.chain'_cons.mp h).2
          have := ih (y2 :: ys2) h2
          simp only [List.zip_cons_cons, SortedFst] at this ⊢
          exact List.chain'_cons.mpr ⟨h1, this⟩

/-- Zipping a strictly ascending x-list with a non-increasing y-list gives
sorted nodes with non-increasing values. -/
lemma sortedAnti_zip : ∀ (xs ys : List ℚ), List.Chain' (· < ·) xs →
    List.Chain' (fun a b : ℚ => b ≤ a) ys →
    List.Chain' (fun a b : ℚ × ℚ => a.1 < b.1 ∧ b.2 ≤ a.2) (xs.zip ys) := by
  intro xs
  induction xs with
  | nil =>
    intro ys _ _
    simp
  | cons x xs ih =>
    intro ys h hy
    cases ys with
    | nil => simp
    | cons y ys =>
      cases xs with
      | nil => simp
      | cons x2 xs2 =>
        cases ys with
        | nil => simp
        | cons y2 ys2 =>
          have h1 : x < x2 := (List.chain'_cons.mp h).1
          have h2 : List.Chain' (· < ·) (x2 :: xs2) := (List.chain'_cons.mp h).2
          have hy1 : y2 ≤ y := (List.chain'_cons.mp hy).1
          have hy2 : List.Chain' (fun a b : ℚ => b ≤ a) (y2 :: ys2) :=
            (List.chain'_cons.mp hy).2
          have := ih (y2 :: ys2) h2 hy2
          simp only [List.zip_cons_cons] at this ⊢
          exact List.chain'_cons.mpr ⟨⟨h1, hy1⟩, this⟩

/-- The altitude grid is strictly ascending. -/
lemma grid_sorted : List.Chain' (· < ·) orbital_altitude_km := by
  norm_num [orbital_altitude_km]

lemma grid_bounds : ∀ x ∈ orbital_altitude_km, 400 ≤ x ∧ x ≤ 1200 := by
  intro x hx
  fin_cases hx <;> norm_num

/-- The stage-1 nodes for any stored curve are sorted in altitude. -/
lemma zip_sorted (c : List ℚ) : SortedFst (orbital_altitude_km.zip c) :=
  sortedFst_zip _ _ grid_sorted

lemma spec_stage1_40 (alt : ℚ) (h1 : 400 ≤ alt) (h2 : alt ≤ 1200) :
    specPL (orbital_altitude_km.zip curve40) alt = some (stage1 curve40 alt) :=
  specPL_eqD _ _ (zip_sorted curve40) (List.cons_ne_nil _ _) h1 h2

lemma spec_stage1_60 (alt : ℚ) (h1 : 400 ≤ alt) (h2 : alt ≤ 1200) :
    specPL (orbital_altitude_km.zip curve60) alt = some (stage1 curve60 alt) :=
  specPL_eqD _ _ (zip_sorted curve60) (List.cons_ne_nil _ _) h1 h2

lemma spec_stage1_80 (alt : ℚ) (h1 : 400 ≤ alt) (h2 : alt ≤ 1200) :
    specPL (orbital_altitude_km.zip curve80) alt = some (stage1 curve80 alt) :=
  specPL_eqD _ _ (zip_sorted curve80) (List.cons_ne_nil _ _) h1 h2

lemma spec_stage1_100 (alt : ℚ) (h1 : 400 ≤ alt) (h2 : alt ≤ 1200) :
    specPL (orbital_altitude_km.zip curve100) alt = some (stage1 curve100 alt) :=
  specPL_eqD _ _ (zip_sorted curve100) (List.cons_ne_nil _ _) h1 h2

lemma synth_sorted (alt : ℚ) : SortedFst (synth alt) := by
  norm_num [SortedFst, synth, List.chain'_cons]

/-- C1: for every altitude in [400, 1200] and inclination in [40, 100],
`capacity` returns exactly the value of the spec's two-stage piecewise-linear
interpolation: stage 1 interpolates each inclination key's curve at the
altitude via the bracketing formula (stored value on an exact grid match),
stage 2 applies the same rule across the per-key results, ordered by
ascending inclination, at the requested inclination. -/
theorem capacity_is_two_stage_piecewise_linear (alt inc : ℚ)
    (h1 : 400 ≤ alt) (h2 : alt ≤ 1200) (h3 : 40 ≤ inc) (h4 : inc ≤ 100) :
    ∃ v, capacity alt inc = .ok v ∧ specCapacity alt inc = some v := by
  have hA : ¬(alt < 400 ∨ 1200 < alt) := by
    simp only [not_or, not_lt]
    exact ⟨h1, h2⟩
  have hI : ¬(inc < 40 ∨ 100 < inc) := by
    simp only [not_or, not_lt]
    exact ⟨h3, h4⟩
  refine ⟨lerpFind (synth alt) inc, ?_, ?_⟩
  · rw [capacity_eq, if_neg hA, if_neg hI]
  · have e40 := spec_stage1_40 alt h1 h2
    have e60 := spec_stage1_60 alt h1 h2
    have e80 := spec_stage1_80 alt h1 h2
    have e100 := spec_stage1_100 alt h1 h2
    have hsynth : specPL (synth alt) inc = some (lerpFind (synth alt) inc) :=
      specPL_eqD _ _ (synth_sorted alt) (List.cons_ne_nil _ _) h3 h4
    simp only [specCapacity, capacity_est_kg, mapOpt, e40, e60, e80, e100,
      Option.map_some']
    simpa [synth] using hsynth

/-- Witness for C1 at altitude 725, inclination 50. -/
theorem capacity_is_two_stage_piecewise_linear_witness :
    ∃ v, capacity 725 50 = .ok v ∧ specCapacity 725 50 = some v :=
  capacity_is_two_stage_piecewise_linear 725 50 (by norm_num) (by norm_num)
    (by norm_num) (by norm_num)

/-- C2: `capacity` fails with the out-of-bounds `ValueError` exactly when the
altitude is strictly outside [400, 1200] or the inclination strictly outside
[40, 100]; inside that domain (boundaries included) it succeeds; and
`calculate_capacity_est_kg_python` returns the absent value in exactly the
failing cases. -/
theorem capacity_out_of_bounds_iff (alt inc : ℚ) :
    (capacity alt inc = .error .outOfBounds ↔
      (alt < 400 ∨ 1200 < alt ∨ inc < 40 ∨ 100 < inc)) ∧
    ((∃ v, capacity alt inc = .ok v) ↔
      ¬(alt < 400 ∨ 1200 < alt ∨ inc < 40 ∨ 100 < inc)) ∧
    (calculate_capacity_est_kg_python alt inc = none ↔
      (alt < 400 ∨ 1200 < alt ∨ inc < 40 ∨ 100 < inc)) := by
  have hPQ : (alt < 400 ∨ 1200 < alt ∨ inc < 40 ∨ 100 < inc) ↔
      ((alt < 400 ∨ 1200 < alt) ∨ (inc < 40 ∨ 100 < inc)) := by tauto
  unfold calculate_capacity_est_kg_python
  rw [capacity_eq alt inc]
  by_cases c1 : alt < 400 ∨ 1200 < alt
  · simp only [if_pos c1, hPQ]
    simp [c1]
  · by_cases c2 : inc < 40 ∨ 100 < inc
    · simp only [if_neg c1, if_pos c2, hPQ]
      simp [c1, c2]
    · simp only [if_neg c1, if_neg c2, hPQ]
      simp [c1, c2]

/-- Stage 1 is exact on grid points: interpolating a stored curve at the
i-th grid altitude returns the i-th stored mass. -/
lemma stage1_at_grid (c : List ℚ) (hlen : c.length = orbital_altitude_km.length)
    (i : ℕ) (hi : i < orbital_altitude_km.length) :
    stage1 c (orbital_altitude_km.getD i 0) = c.getD i 0 := by
  have hic : i < c.length := by rw [hlen]; exact hi
  have hiz : i < (orbital_altitude_km.zip c).length := by
    rw [List.length_zip]
    omega
  have hnode : (orbital_altitude_km.getD i 0, c.getD i 0) ∈ orbital_altitude_km.zip c := by
    have hg : (orbital_altitude_km.zip c)[i] =
        (orbital_altitude_km.getD i 0, c.getD i 0) := by
      rw [List.getD_eq_getElem _ _ hi, List.getD_eq_getElem _ _ hic]
      simp [List.getElem_zip]
    rw [← hg]
    exact List.getElem_mem hiz
  have h := lerpFind_node _ (zip_sorted c) _ hnode
  simpa [stage1] using h

/-- Stage 2 is exact on stored keys: evaluating the synthetic curve at a key
returns that key's stage-1 value. -/
lemma synth_at_key (alt k s : ℚ) (hmem : (k, s) ∈ synth alt) :
    lerpFind (synth alt) k = s := by
  have h := lerpFind_node _ (synth_sorted alt) _ hmem
  simpa using h

/-- C3: for every altitude value in the tabulated grid and every configured
inclination key, `capacity(grid_value, key)` is exactly the stored table
value for that grid point and key, with zero interpolation error. -/
theorem capacity_exact_on_grid (pr : ℚ × List ℚ) (hpr : pr ∈ capacity_est_kg)
    (i : ℕ) (hi : i < orbital_altitude_km.length) :
    capacity (orbital_altitude_km.getD i 0) pr.1 = .ok (pr.2.getD i 0) := by
  have hx : 400 ≤ orbital_altitude_km.getD i 0 ∧ orbital_altitude_km.getD i 0 ≤ 1200 := by
    apply grid_bounds
    rw [List.getD_eq_getElem _ _ hi]
    exact List.getElem_mem hi
  have hA : ¬(orbital_altitude_km.getD i 0 < 400 ∨ 1200 < orbital_altitude_km.getD i 0) := by
    simp only [not_or, not_lt]
    exact hx
  have hkb : 40 ≤ pr.1 ∧ pr.1 ≤ 100 := by
    fin_cases hpr <;> norm_num
  have hlen : pr.2.length = orbital_altitude_km.length := by
    fin_cases hpr <;> norm_num [curve40, curve60, curve80, curve100, orbital_altitude_km]
  have hsmem : (pr.1, stage1 pr.2 (orbital_altitude_km.getD i 0)) ∈
      synth (orbital_altitude_km.getD i 0) := by
    fin_cases hpr <;> simp [synth]
  rw [capacity_eq, if_neg hA, if_neg (by simp only [not_or, not_lt]; exact hkb)]
  rw [synth_at_key _ _ _ hsmem, stage1_at_grid _ hlen i hi]

/-- Witness for C3: the grid point 500 km on the 60-degree key. -/
theorem capacity_exact_on_grid_witness : capacity 500 60 = .ok 243.0 :=
  capacity_exact_on_grid (60, curve60)
    (List.mem_cons_of_mem _ (List.mem_cons_self _ _)) 2 (by norm_num [orbital_altitude_km])

/-- C4: the concrete Electron-dataset queries — exact matches at (400, 40)
and (1200, 100), the stage-1 midpoint at (725, 40), the stage-2 midpoint at
(400, 70), absent value for altitude 300, error for inclination 150. -/
theorem capacity_concrete_queries :
    capacity 400 40 = .ok 270.0 ∧
    capacity 1200 100 = .ok 155.6 ∧
    capacity 725 40 = .ok 249.15 ∧
    capacity 400 70 = .ok 236.7 ∧
    calculate_capacity_est_kg_python 300 40 = none ∧
    capacity 400 150 = .error .outOfBounds := by
  refine ⟨?_, ?_, ?_, ?_, ?_, ?_⟩ <;>
    norm_num [capacity_eq, calculate_capacity_est_kg_python, synth, stage1,
      orbital_altitude_km, curve40, curve60, curve80, curve100, lerpFind, lerp2,
      List.zip, List.zipWith]

/-- C5: the fallible wrapper turns a successful query into the same value,
turns the out-of-bounds error into the absent value, and no error kind other
than out-of-bounds is ever produced by `capacity` — so the wrapper's
`ValueError` catch never swallows a configuration error. -/
theorem safe_wrapper_error_handling (alt inc : ℚ) :
    (∀ v, capacity alt inc = .ok v → calculate_capacity_est_kg_python alt inc = some v) ∧
    (capacity alt inc = .error .outOfBounds →
      calculate_capacity_est_kg_python alt inc = none) ∧
    (∀ e, capacity alt inc = .error e → e = .outOfBounds) := by
  refine ⟨?_, ?_, ?_⟩
  · intro v hv
    simp [calculate_capacity_est_kg_python, hv]
  · intro hv
    simp [calculate_capacity_est_kg_python, hv]
  · intro e he
    rw [capacity_eq] at he
    split_ifs at he with hA hI <;>
      (injection he with h; exact h.symm)

/-- Witness for C5: the below-minimum altitude query (300, 40). -/
theorem safe_wrapper_error_handling_witness :
    calculate_capacity_est_kg_python 300 40 = none :=
  (safe_wrapper_error_handling 300 40).2.1 (by norm_num [capacity_eq])

/-- C8: wherever the strict query succeeds, the fallible wrapper returns
exactly the same mass value. -/
theorem wrapper_agrees_on_success (alt inc v : ℚ) (h : capacity alt inc = .ok v) :
    calculate_capacity_est_kg_python alt inc = some v := by
  simp [calculate_capacity_est_kg_python, h]

/-- Witness for C8: the exact-match query (400, 40). -/
theorem wrapper_agrees_on_success_witness :
    calculate_capacity_est_kg_python 400 40 = some 270.0 :=
  wrapper_agrees_on_success 400 40 270.0
    (by norm_num [capacity_eq, synth, stage1, orbital_altitude_km, curve40, curve60,
      curve80, curve100, lerpFind, lerp2, List.zip, List.zipWith])

/-- `capacity` at a stored inclination key returns that key's stage-1 value. -/
lemma capacity_at_table_key (pr : ℚ × List ℚ) (hpr : pr ∈ capacity_est_kg) (alt : ℚ)
    (hA : ¬(alt < 400 ∨ 1200 < alt)) :
    capacity alt pr.1 = .ok (stage1 pr.2 alt) := by
  have hkb : ¬(pr.1 < 40 ∨ 100 < pr.1) := by
    fin_cases hpr <;> norm_num
  have hsm : (pr.1, stage1 pr.2 alt) ∈ synth alt := by
    fin_cases hpr <;> simp [synth]
  rw [capacity_eq, if_neg hA, if_neg hkb, synth_at_key _ _ _ hsm]

/-- C6: at a fixed stored inclination key whose curve is monotonically
non-increasing, a lower in-domain altitude never yields a smaller capacity
estimate than a higher one. -/
theorem capacity_antitone_in_altitude (pr : ℚ × List ℚ) (hpr : pr ∈ capacity_est_kg)
    (hanti : List.Chain' (fun a b : ℚ => b ≤ a) pr.2)
    (a1 a2 : ℚ) (h1 : 400 ≤ a1) (h12 : a1 < a2) (h2 : a2 ≤ 1200) :
    ∃ v1 v2, capacity a1 pr.1 = .ok v1 ∧ capacity a2 pr.1 = .ok v2 ∧ v2 ≤ v1 := by
  have ha2 : 400 ≤ a2 := le_trans h1 h12.le
  have ha1' : a1 ≤ 1200 := le_trans h12.le h2
  have hA1 : ¬(a1 < 400 ∨ 1200 < a1) := by
    simp only [not_or, not_lt]
    exact ⟨h1, ha1'⟩
  have hA2 : ¬(a2 < 400 ∨ 1200 < a2) := by
    simp only [not_or, not_lt]
    exact ⟨ha2, h2⟩
  refine ⟨stage1 pr.2 a1, stage1 pr.2 a2,
    capacity_at_table_key pr hpr a1 hA1, capacity_at_table_key pr hpr a2 hA2, ?_⟩
  fin_cases hpr <;>
    exact lerpFind_antiD _ a1 a2 (sortedAnti_zip _ _ grid_sorted hanti)
      (List.cons_ne_nil _ _) h1 h12.le h2

/-- Witness for C6: the 40-degree curve between 400 km and 1200 km. -/
theorem capacity_antitone_in_altitude_witness :
    ∃ v1 v2, capacity 400 40 = .ok v1 ∧ capacity 1200 40 = .ok v2 ∧ v2 ≤ v1 :=
  capacity_antitone_in_altitude (40, curve40) (List.mem_cons_self _ _)
    (by norm_num [curve40]) 400 1200 (by norm_num) (by norm_num) (by norm_num)

/-- Every tabulated mass lies within [155.6, 270]. -/
lemma curve_range : ∀ pr ∈ capacity_est_kg, ∀ y ∈ pr.2, 155.6 ≤ y ∧ y ≤ 270 := by
  intro pr hpr
  fin_cases hpr <;>
    · intro y hy
      fin_cases hy <;> norm_num

/-- Every stage-1 result over the shipped table lies within [155.6, 270]. -/
lemma stage1_range (pr : ℚ × List ℚ) (hpr : pr ∈ capacity_est_kg) (alt : ℚ)
    (h1 : 400 ≤ alt) (h2 : alt ≤ 1200) :
    155.6 ≤ stage1 pr.2 alt ∧ stage1 pr.2 alt ≤ 270 := by
  have hy : ∀ a ∈ orbital_altitude_km.zip pr.2, 155.6 ≤ a.2 ∧ a.2 ≤ 270 := by
    intro a ha
    exact curve_range pr hpr a.2 (List.of_mem_zip ha).2
  fin_cases hpr <;>
    exact ⟨lerpFind_geD _ _ _ (zip_sorted _) (fun a ha => (hy a ha).1)
        (List.cons_ne_nil _ _) h1 h2,
      lerpFind_leD _ _ _ (zip_sorted _) (fun a ha => (hy a ha).2)
        (List.cons_ne_nil _ _) h1 h2⟩

/-- Any in-domain query succeeds with a value within [155.6, 270]. -/
lemma capacity_range (alt inc : ℚ) (h1 : 400 ≤ alt) (h2 : alt ≤ 1200)
    (h3 : 40 ≤ inc) (h4 : inc ≤ 100) :
    capacity alt inc = .ok (lerpFind (synth alt) inc) ∧
    155.6 ≤ lerpFind (synth alt) inc ∧ lerpFind (synth alt) inc ≤ 270 := by
  have r40 := stage1_range (40, curve40) (List.mem_cons_self _ _) alt h1 h2
  have r60 := stage1_range (60, curve60)
    (List.mem_cons_of_mem _ (List.mem_cons_self _ _)) alt h1 h2
  have r80 := stage1_range (80, curve80)
    (List.mem_cons_of_mem _ (List.mem_cons_of_mem _ (List.mem_cons_self _ _))) alt h1 h2
  have r100 := stage1_range (100, curve100)
    (List.mem_cons_of_mem _ (List.mem_cons_of_mem _
      (List.mem_cons_of_mem _ (List.mem_cons_self _ _)))) alt h1 h2
  have hsy : ∀ a ∈ synth alt, 155.6 ≤ a.2 ∧ a.2 ≤ 270 := by
    intro a ha
    simp only [synth, List.mem_cons, List.not_mem_nil, or_false] at ha
    rcases ha with rfl | rfl | rfl | rfl
    · exact r40
    · exact r60
    · exact r80
    · exact r100
  refine ⟨?_, ?_, ?_⟩
  · rw [capacity_eq, if_neg (by simp only [not_or, not_lt]; exact ⟨h1, h2⟩),
      if_neg (by simp only [not_or, not_lt]; exact ⟨h3, h4⟩)]
  · exact lerpFind_geD _ _ _ (synth_sorted alt) (fun a ha => (hsy a ha).1)
      (List.cons_ne_nil _ _) h3 h4
  · exact lerpFind_leD _ _ _ (synth_sorted alt) (fun a ha => (hsy a ha).2)
      (List.cons_ne_nil _ _) h3 h4

/-- C9: every in-domain query returns a non-negative payload-mass estimate. -/
theorem capacity_nonneg (alt inc : ℚ) (h1 : 400 ≤ alt) (h2 : alt ≤ 1200)
    (h3 : 40 ≤ inc) (h4 : inc ≤ 100) :
    ∃ v, capacity alt inc = .ok v ∧ 0 ≤ v := by
  obtain ⟨hcap, hlo, _⟩ := capacity_range alt inc h1 h2 h3 h4
  exact ⟨_, hcap, le_trans (by norm_num) hlo⟩

/-- Witness for C9 at (450, 45). -/
theorem capacity_nonneg_witness : ∃ v, capacity 450 45 = .ok v ∧ 0 ≤ v :=
  capacity_nonneg 450 45 (by norm_num) (by norm_num) (by norm_num) (by norm_num)

/-- C10: every in-domain query returns a value within the extremes of the
tabulated masses, 155.6 and 270.0, both interpolation stages being convex
combinations of node values. -/
theorem capacity_within_table_range (alt inc : ℚ) (h1 : 400 ≤ alt) (h2 : alt ≤ 1200)
    (h3 : 40 ≤ inc) (h4 : inc ≤ 100) :
    ∃ v, capacity alt inc = .ok v ∧ 155.6 ≤ v ∧ v ≤ 270.0 := by
  obtain ⟨hcap, hlo, hhi⟩ := capacity_range alt inc h1 h2 h3 h4
  refine ⟨_, hcap, hlo, ?_⟩
  have h270 : (270.0 : ℚ) = 270 := by norm_num
  rw [h270]
  exact hhi

/-- Witness for C10 at (1000, 90). -/
theorem capacity_within_table_range_witness :
    ∃ v, capacity 1000 90 = .ok v ∧ 155.6 ≤ v ∧ v ≤ 270.0 :=
  capacity_within_table_range 1000 90 (by norm_num) (by norm_num) (by norm_num)
    (by norm_num)

/-- C7: table construction fails with `ConfigError` whenever the grid has
fewer than 2 points, the grid is not strictly ascending, some curve's length
differs from the grid length, or fewer than 2 distinct inclination keys are
supplied. -/
theorem build_table_config_errors (grid : List ℚ) (curves : List (ℚ × List ℚ))
    (h : grid.length < 2 ∨ ¬ List.Chain' (· < ·) grid ∨
      (∃ pr ∈ curves, pr.2.length ≠ grid.length) ∨
      (curves.map Prod.fst).dedup.length < 2) :
    build_table grid curves = .error .configError := by
  rw [build_table]
  by_cases h1 : grid.length < 2
  · rw [if_pos h1]
  · rw [if_neg h1]
    by_cases h2 : List.Chain' (· < ·) grid
    · rw [if_neg (not_not_intro h2)]
      by_cases h3 : (curves.any fun pr => pr.2.length ≠ grid.length) = true
      · rw [if_pos h3]
      · rw [if_neg h3]
        have h4 : (curves.map Prod.fst).dedup.length < 2 := by
          rcases h with h | h | h | h
          · exact absurd h h1
          · exact absurd h2 h
          · exfalso
            apply h3
            rcases h with ⟨pr, hpr, hne⟩
            exact List.any_eq_true.mpr ⟨pr, hpr, decide_eq_true hne⟩
          · exact h
        rw [if_pos h4]
    · rw [if_pos h2]

/-- Witness for C7: the empty grid is rejected. -/
theorem build_table_config_errors_witness :
    build_table [] [] = .error .configError :=
  build_table_config_errors [] [] (Or.inl (by norm_num))

/-- The shipped dataset passes the spec's construction validation. -/
lemma build_table_shipped :
    build_table orbital_altitude_km capacity_est_kg =
      .ok ⟨orbital_altitude_km, capacity_est_kg⟩ := by
  rw [build_table, if_neg (by norm_num [orbital_altitude_km]),
    if_neg (by simp only [not_not]; exact grid_sorted)]
  rw [if_neg ?hc, if_neg ?hk]
  case hc =>
    norm_num [capacity_est_kg, curve40, curve60, curve80, curve100, orbital_altitude_km]
  case hk =>
    norm_num [capacity_est_kg, List.dedup_cons_of_not_mem, List.dedup_nil]

end RocketLab
